import Mathlib

/-!
# rasdaemon: the ftrace `trace_marker` hook (`ras-daemon-trace.c`)

A shallow embedding of the three operations of `ras-daemon-trace.c`
(`ras_trace_init`, `ras_trace_cleanup`, `ras_trace_mark`) together with the
pieces of the C library and of the kernel interface they rely on, followed by
the properties of the module.

Conventions of the embedding:

* the process-wide `int ras_trace_fd` is the field `ras_trace_fd` of `State`;
* every call the module makes to the outside (`open`, `close`, `write`, `log`)
  is appended to the field `trace` of `State`, oldest first;
* the return value of `open` is supplied by the environment as a function
  from the path to an `Int` (non-negative descriptor, or negative on failure);
* the stack array `char buf[512]` is a list of 512 cells, a cell being `none`
  while its value is indeterminate;
* an access outside `buf` has no defined behaviour in C: the embedding stops
  there and reports a `Fault`.
-/

namespace RasTrace

/-! ## Data model -/

/-- Severity levels the module passes to the logging collaborator. -/
inductive LogLevel where
  | LOG_INFO
  | LOG_WARNING
  deriving DecidableEq, Repr

/-- Calls made by the module to the outside world. -/
inductive Effect where
  /-- The call `open(path, O_WRONLY)` and the value it returned. -/
  | open (path : String) (ret : Int)
  /-- The call `close(fd)`. -/
  | close (fd : Int)
  /-- The call `write(fd, buf, count)`; `data` is `buf[0 .. count)`. -/
  | write (fd : Int) (data : List (Option Char)) (count : Nat)
  /-- The call `log(TERM, level, fmt, arg)`; `arg` is the path argument, if any. -/
  | log (level : LogLevel) (fmt : String) (arg : Option String)
  deriving DecidableEq, Repr

/-- Module state: the global descriptor and the calls issued so far. -/
structure State where
  ras_trace_fd : Int
  trace : List Effect
  deriving DecidableEq, Repr

/-- State at program start: `int ras_trace_fd = -1;`, nothing called yet. -/
def initial : State := { ras_trace_fd := -1, trace := [] }

/-- Out-of-bounds access to `buf` in `ras_trace_mark`: the index given to
`buf[len] = '\n'` and the count the following `write` is given. -/
structure Fault where
  storeIndex : Nat
  writeCount : Nat
  deriving DecidableEq, Repr

/-- The candidates of `trace_marker_paths[]`, up to the terminating `NULL`. -/
def trace_marker_paths : List String :=
  ["/sys/kernel/debug/tracing/trace_marker",
   "/sys/kernel/tracing/trace_marker"]

/-- Size of `char buf[512]`, that is `sizeof(buf)`. -/
def BUF_SIZE : Nat := 512

/-- Largest value of a C `int`. -/
def INT_MAX : Nat := 2147483647

/-! ## C library: formatted output -/

/-- Variadic arguments of a format. -/
inductive Arg where
  | int (i : Int)
  | str (s : List Char)
  | chr (c : Char)
  deriving DecidableEq, Repr

/-- Expansion of a format with its arguments: the complete text, or `none`
when the conversion fails. The expansion belongs to the C library; the
operations below take it as a parameter. -/
abbrev Formatter := List Char → List Arg → Option (List Char)

/-- Decimal text of an integer, as `%d` prints it. -/
def decimal (i : Int) : List Char :=
  if i < 0 then '-' :: Nat.toDigits 10 i.natAbs else Nat.toDigits 10 i.toNat

/-- A formatter for the conversions `%d`, `%s`, `%c` and `%%`, the ones the
tracing macros of `ras-daemon-trace.h` use; other conversions are not covered
and give `none`. -/
def printf : Formatter
  | [], _ => some []
  | c :: rest, args =>
    if c = '%' then
      match rest, args with
      | d :: rest2, args =>
        if d = '%' then (printf rest2 args).map (fun t => '%' :: t)
        else match args with
          | Arg.int i :: args2 =>
            if d = 'd' then (printf rest2 args2).map (fun t => decimal i ++ t) else none
          | Arg.str s :: args2 =>
            if d = 's' then (printf rest2 args2).map (fun t => s ++ t) else none
          | Arg.chr x :: args2 =>
            if d = 'c' then (printf rest2 args2).map (fun t => x :: t) else none
          | [] => none
      | [], _ => none
    else (printf rest args).map (fun t => c :: t)

/-- Copy `bytes` to the start of `buf`; the caller keeps `bytes` within `buf`. -/
def store_bytes (buf : List (Option Char)) (bytes : List Char) : List (Option Char) :=
  bytes.map some ++ buf.drop bytes.length

/-- The call `vsnprintf(buf, size, fmt, args)`: at most `size - 1` characters
of the expansion are stored, followed by a NUL; the value returned is the
length of the complete expansion, whether it was truncated or not, and is
negative on an output error or when that length does not fit an `int`. -/
def vsnprintf (render : Formatter) (buf : List (Option Char)) (size : Nat)
    (fmt : List Char) (args : List Arg) : List (Option Char) × Int :=
  match render fmt args with
  | none => (buf, -1)
  | some text =>
    if INT_MAX < text.length then (buf, -1)
    else if size = 0 then (buf, (text.length : Int))
    else (store_bytes buf (text.take (size - 1) ++ [Char.ofNat 0]), (text.length : Int))

/-! ## The module -/

/-- The loop of `ras_trace_init` over the remaining candidates, and the code
after the loop when they are exhausted. -/
def init_loop (fs : String → Int) : List String → State → State × Int
  | [], st =>
    ({ st with trace := st.trace ++
        [Effect.log LogLevel.LOG_WARNING
          "Could not open trace_marker. Tracing disabled.\nEnsure debugfs is mounted: mount -t debugfs none /sys/kernel/debug\n"
          none] }, -1)
  | p :: ps, st =>
    let st1 : State := { ras_trace_fd := fs p, trace := st.trace ++ [Effect.open p (fs p)] }
    if 0 ≤ st1.ras_trace_fd then
      ({ st1 with trace := st1.trace ++
          [Effect.log LogLevel.LOG_INFO "Tracing enabled via %s\n" (some p)] }, 0)
    else init_loop fs ps st1

/-- The function `ras_trace_init`; `fs` gives what `open(path, O_WRONLY)`
returns for each path at the time of the call. -/
def ras_trace_init (fs : String → Int) (st : State) : State × Int :=
  init_loop fs trace_marker_paths st

/-- The function `ras_trace_cleanup`. -/
def ras_trace_cleanup (st : State) : State :=
  if 0 ≤ st.ras_trace_fd then
    { ras_trace_fd := -1, trace := st.trace ++ [Effect.close st.ras_trace_fd] }
  else st

/-- The function `ras_trace_mark`. -/
def ras_trace_mark (render : Formatter) (st : State) (fmt : List Char) (args : List Arg) :
    Except Fault State :=
  if st.ras_trace_fd < 0 then Except.ok st
  else
    let r := vsnprintf render (List.replicate BUF_SIZE none) (BUF_SIZE - 1) fmt args
    let len : Int := r.2
    if 0 < len then
      if len.toNat < BUF_SIZE then
        let buf := r.1.set len.toNat (some '\n')
        Except.ok { st with trace := st.trace ++
          [Effect.write st.ras_trace_fd (buf.take (len.toNat + 1)) (len.toNat + 1)] }
      else Except.error { storeIndex := len.toNat, writeCount := len.toNat + 1 }
    else Except.ok st

/-! ## Sequences of calls -/

/-- One call of the public interface; `init` carries what `open` returns at
the time of that call. -/
inductive Call where
  | init (fs : String → Int)
  | mark (fmt : List Char) (args : List Arg)
  | cleanup

/-- Execute one call. -/
def step (render : Formatter) (st : State) : Call → Except Fault State
  | Call.init fs => Except.ok (ras_trace_init fs st).1
  | Call.mark fmt args => ras_trace_mark render st fmt args
  | Call.cleanup => Except.ok (ras_trace_cleanup st)

/-- Execute a sequence of calls, stopping at the first fault. -/
def run (render : Formatter) : List Call → State → Except Fault State
  | [], st => Except.ok st
  | c :: cs, st =>
    match step render st c with
    | Except.ok st1 => run render cs st1
    | Except.error f => Except.error f

/-- Descriptors opened by the module and not closed since, after one more call. -/
def track (acc : List Int) : Effect → List Int
  | Effect.open _ ret => if 0 ≤ ret then ret :: acc else acc
  | Effect.close fd => acc.erase fd
  | _ => acc

/-- Descriptors opened by the module and still open after the calls of a trace. -/
def openDescriptors (t : List Effect) : List Int :=
  t.foldl track []

/-- Whether every `init` of the sequence is called with the handle unset. -/
def initWhenUnset (render : Formatter) : List Call → State → Bool
  | [], _ => true
  | c :: cs, st =>
    (match c with
      | Call.init _ => decide (st.ras_trace_fd < 0)
      | _ => true) &&
    (match step render st c with
      | Except.ok st1 => initWhenUnset render cs st1
      | Except.error _ => true)

/-- The `open` calls of candidates that all failed. -/
def failedOpens (fs : String → Int) (ps : List String) : List Effect :=
  ps.map (fun q => Effect.open q (fs q))

/-- The descriptors the handle stands for: itself when set, none when unset. -/
def held (fd : Int) : List Int := if 0 ≤ fd then [fd] else []

/-- Invariant of the module: the open descriptors are exactly the one the
handle holds, and at no earlier point of the trace was more than one open. -/
def Inv (st : State) : Prop :=
  openDescriptors st.trace = held st.ras_trace_fd ∧
  ∀ n, (openDescriptors (st.trace.take n)).length ≤ 1

/-! ## Sample filesystems -/

/-- The filesystem in which only the debugfs candidate opens, giving `fd`. -/
def fsDebug (fd : Int) : String → Int :=
  fun p => if p = "/sys/kernel/debug/tracing/trace_marker" then fd else -1

/-- The filesystem in which only the tracefs candidate opens, giving `fd`. -/
def fsTracefs (fd : Int) : String → Int :=
  fun p => if p = "/sys/kernel/tracing/trace_marker" then fd else -1

/-- The filesystem in which nothing opens. -/
def fsNone : String → Int := fun _ => -1

/-! ## Formatted output: auxiliary facts -/

theorem set_length_append {α : Type} (l r : List α) (x y : α) :
    ((l ++ [x]) ++ r).set l.length y = (l ++ [y]) ++ r := by
  induction l with
  | nil => simp
  | cons a l ih => simp [ih]

theorem take_succ_length_append {α : Type} (l r : List α) (x : α) :
    ((l ++ [x]) ++ r).take (l.length + 1) = l ++ [x] := by
  have h : (l ++ [x]).length = l.length + 1 := by simp
  rw [← h, List.take_left]

/-- Value returned by `vsnprintf` when the expansion succeeds and fits an `int`. -/
theorem vsnprintf_ok (render : Formatter) (buf : List (Option Char)) (fmt : List Char)
    (args : List Arg) (text : List Char) (hr : render fmt args = some text)
    (hmax : text.length ≤ INT_MAX) :
    vsnprintf render buf (BUF_SIZE - 1) fmt args
      = (store_bytes buf (text.take 510 ++ [Char.ofNat 0]), (text.length : Int)) := by
  have h : ¬ INT_MAX < text.length := by omega
  simp [vsnprintf, hr, h, BUF_SIZE]

/-- Value returned by `vsnprintf`, whatever the buffer and its size. -/
theorem vsnprintf_ret (render : Formatter) (buf : List (Option Char)) (size : Nat)
    (fmt : List Char) (args : List Arg) :
    (vsnprintf render buf size fmt args).2
      = match render fmt args with
        | none => -1
        | some text => if INT_MAX < text.length then -1 else (text.length : Int) := by
  unfold vsnprintf
  cases render fmt args with
  | none => rfl
  | some text =>
    simp only
    split
    · rfl
    · split <;> rfl

/-- A text of 1 to 510 characters is written whole, followed by a newline. -/
theorem mark_fits (render : Formatter) (st : State) (fmt : List Char) (args : List Arg)
    (text : List Char) (hfd : 0 ≤ st.ras_trace_fd) (hr : render fmt args = some text)
    (h1 : 1 ≤ text.length) (h2 : text.length ≤ 510) :
    ras_trace_mark render st fmt args
      = Except.ok { st with trace := st.trace ++
          [Effect.write st.ras_trace_fd ((text ++ ['\n']).map some) (text.length + 1)] } := by
  have hmax : text.length ≤ INT_MAX := by unfold INT_MAX; omega
  have hfd2 : ¬ st.ras_trace_fd < 0 := by omega
  have hpos : (0 : Int) < (text.length : Int) := by omega
  have hlt : text.length < BUF_SIZE := by unfold BUF_SIZE; omega
  have htake : text.take 510 = text := List.take_of_length_le h2
  have hbuf : store_bytes (List.replicate BUF_SIZE none) (text.take 510 ++ [Char.ofNat 0])
      = (text.map some ++ [some (Char.ofNat 0)])
          ++ (List.replicate BUF_SIZE none).drop (text.length + 1) := by
    simp [store_bytes, htake]
  have hset := set_length_append (text.map some) ((List.replicate BUF_SIZE none).drop (text.length + 1))
    (some (Char.ofNat 0)) (some '\n')
  have htk := take_succ_length_append (text.map some)
    ((List.replicate BUF_SIZE none).drop (text.length + 1)) (some '\n')
  simp only [List.length_map] at hset htk
  simp only [ras_trace_mark, hfd2, if_false, vsnprintf_ok render _ fmt args text hr hmax,
    hpos, if_true, Int.toNat_ofNat, hlt, hbuf, hset, htk]
  simp

/-- A text of exactly 511 characters: 510 of them are written, then the NUL
stored by `vsnprintf`, then the newline. -/
theorem mark_511 (render : Formatter) (st : State) (fmt : List Char) (args : List Arg)
    (text : List Char) (hfd : 0 ≤ st.ras_trace_fd) (hr : render fmt args = some text)
    (h : text.length = 511) :
    ras_trace_mark render st fmt args
      = Except.ok { st with trace := st.trace ++
          [Effect.write st.ras_trace_fd
            ((text.take 510 ++ [Char.ofNat 0, '\n']).map some) 512] } := by
  have hmax : text.length ≤ INT_MAX := by unfold INT_MAX; omega
  have hfd2 : ¬ st.ras_trace_fd < 0 := by omega
  have hpos : (0 : Int) < (text.length : Int) := by omega
  have hlt : text.length < BUF_SIZE := by unfold BUF_SIZE; omega
  have hlen : (text.take 510).length = 510 := by simp [h]
  have hdrop : (List.replicate BUF_SIZE (none : Option Char)).drop 511 = [none] := by
    rw [List.drop_replicate]; rfl
  have hbuf : store_bytes (List.replicate BUF_SIZE none) (text.take 510 ++ [Char.ofNat 0])
      = (((text.take 510).map some ++ [some (Char.ofNat 0)]) ++ [none])
          ++ ([] : List (Option Char)) := by
    simp only [store_bytes, List.length_append, hlen, List.length_singleton, hdrop,
      List.map_append, List.map_cons, List.map_nil, List.append_nil, List.append_assoc]
  have hset := set_length_append ((text.take 510).map some ++ [some (Char.ofNat 0)]) []
    (none : Option Char) (some '\n')
  have hl : ((text.take 510).map some ++ [some (Char.ofNat 0)]).length = 511 := by
    simp only [List.length_append, List.length_map, hlen, List.length_singleton]
  rw [hl] at hset
  have hl2 : (((text.take 510).map some ++ [some (Char.ofNat 0)]) ++ [some '\n'] ++ []).length
      = 511 + 1 := by
    simp only [List.length_append, List.length_map, hlen, List.length_singleton,
      List.length_nil]
  have htk : ((((text.take 510).map some ++ [some (Char.ofNat 0)]) ++ [some '\n']) ++ []).take
      (511 + 1) = (text.take 510 ++ [Char.ofNat 0, '\n']).map some := by
    rw [← hl2, List.take_length]
    simp only [List.map_append, List.map_cons, List.map_nil, List.append_nil,
      List.append_assoc, List.singleton_append]
  simp only [ras_trace_mark, hfd2, if_false, vsnprintf_ok render _ fmt args text hr hmax,
    hpos, if_true, Int.toNat_ofNat, hlt]
  rw [hbuf, h, hset, htk]

/-- A text of 512 characters or more: the newline is stored outside `buf`. -/
theorem mark_overflow (render : Formatter) (st : State) (fmt : List Char) (args : List Arg)
    (text : List Char) (hfd : 0 ≤ st.ras_trace_fd) (hr : render fmt args = some text)
    (h1 : 512 ≤ text.length) (h2 : text.length ≤ INT_MAX) :
    ras_trace_mark render st fmt args
      = Except.error { storeIndex := text.length, writeCount := text.length + 1 } := by
  have hfd2 : ¬ st.ras_trace_fd < 0 := by omega
  have hpos : (0 : Int) < (text.length : Int) := by omega
  have hlt : ¬ text.length < BUF_SIZE := by unfold BUF_SIZE; omega
  simp only [ras_trace_mark, hfd2, if_false, vsnprintf_ok render _ fmt args text hr h2,
    hpos, if_true, Int.toNat_ofNat, hlt]

/-- With the handle unset nothing happens. -/
theorem mark_unset (render : Formatter) (st : State) (fmt : List Char) (args : List Arg)
    (hfd : st.ras_trace_fd < 0) : ras_trace_mark render st fmt args = Except.ok st := by
  simp [ras_trace_mark, hfd]

/-- The formatter expands `%s` to its argument. -/
theorem printf_percent_s (s : List Char) : printf ['%', 's'] [Arg.str s] = some s := by
  simp [printf]

/-! ## Initialisation: auxiliary facts -/

/-- The loop stops at the first candidate that opens. -/
theorem init_loop_first (fs : String → Int) (p : String) (post : List String)
    (hp : 0 ≤ fs p) :
    ∀ (pre : List String) (st : State), (∀ q ∈ pre, fs q < 0) →
      init_loop fs (pre ++ p :: post) st
        = ({ ras_trace_fd := fs p,
             trace := st.trace ++ (failedOpens fs pre ++
               [Effect.open p (fs p),
                Effect.log LogLevel.LOG_INFO "Tracing enabled via %s\n" (some p)]) }, 0) := by
  intro pre
  induction pre with
  | nil =>
    intro st _
    simp [init_loop, hp, failedOpens]
  | cons q pre ih =>
    intro st hq
    have hq0 : ¬ 0 ≤ fs q := by
      have := hq q (List.mem_cons_self q pre)
      omega
    have hrest : ∀ r ∈ pre, fs r < 0 := fun r hr => hq r (List.mem_cons_of_mem q hr)
    simp [init_loop, hq0, ih _ hrest, failedOpens]

/-- A successful return of the loop comes from a first candidate that opens. -/
theorem init_loop_success (fs : String → Int) :
    ∀ (ps : List String) (st : State), (init_loop fs ps st).2 = 0 →
      ∃ pre p post, ps = pre ++ p :: post ∧ (∀ q ∈ pre, fs q < 0) ∧ 0 ≤ fs p := by
  intro ps
  induction ps with
  | nil =>
    intro st h
    simp [init_loop] at h
  | cons q ps ih =>
    intro st h
    by_cases hq : 0 ≤ fs q
    · exact ⟨[], q, ps, by simp, by simp, hq⟩
    · simp only [init_loop, hq, if_false] at h
      obtain ⟨pre, p, post, hsplit, hpre, hp⟩ := ih _ h
      refine ⟨q :: pre, p, post, by simp [hsplit], ?_, hp⟩
      intro r hr
      rcases List.mem_cons.mp hr with h1 | h1
      · subst h1; omega
      · exact hpre r h1

/-- When no candidate opens the loop tries them all and fails. -/
theorem init_loop_none (fs : String → Int) :
    ∀ (ps : List String) (st : State), (∀ q ∈ ps, fs q < 0) →
      (init_loop fs ps st).2 = -1 ∧
      (init_loop fs ps st).1.trace = st.trace ++ (failedOpens fs ps ++
        [Effect.log LogLevel.LOG_WARNING
          "Could not open trace_marker. Tracing disabled.\nEnsure debugfs is mounted: mount -t debugfs none /sys/kernel/debug\n"
          none]) ∧
      ((init_loop fs ps st).1.ras_trace_fd = st.ras_trace_fd ∨
        ∃ q ∈ ps, (init_loop fs ps st).1.ras_trace_fd = fs q) := by
  intro ps
  induction ps with
  | nil =>
    intro st _
    simp [init_loop, failedOpens]
  | cons q ps ih =>
    intro st hq
    have hq0 : ¬ 0 ≤ fs q := by
      have := hq q (List.mem_cons_self q ps)
      omega
    have hrest : ∀ r ∈ ps, fs r < 0 := fun r hr => hq r (List.mem_cons_of_mem q hr)
    obtain ⟨h1, h2, h3⟩ := ih { ras_trace_fd := fs q, trace := st.trace ++ [Effect.open q (fs q)] } hrest
    simp only [init_loop, hq0, if_false]
    refine ⟨h1, ?_, ?_⟩
    · rw [h2]; simp [failedOpens]
    · right
      rcases h3 with h3 | ⟨r, hr, h3⟩
      · exact ⟨q, List.mem_cons_self q ps, h3⟩
      · exact ⟨r, List.mem_cons_of_mem q hr, h3⟩

/-! ## Open descriptors: auxiliary facts -/

theorem openDescriptors_append (t : List Effect) (e : Effect) :
    openDescriptors (t ++ [e]) = track (openDescriptors t) e := by
  simp [openDescriptors, List.foldl_append]

theorem held_length (fd : Int) : (held fd).length ≤ 1 := by
  unfold held; split <;> simp

theorem prefixes_push (t : List Effect) (e : Effect)
    (h : ∀ n, (openDescriptors (t.take n)).length ≤ 1)
    (he : (openDescriptors (t ++ [e])).length ≤ 1) :
    ∀ n, (openDescriptors ((t ++ [e]).take n)).length ≤ 1 := by
  intro n
  by_cases hn : n ≤ t.length
  · rw [List.take_append_of_le_length hn]; exact h n
  · have hlen : (t ++ [e]).length ≤ n := by simp; omega
    rw [List.take_of_length_le hlen]; exact he

/-- One more call keeps the invariant when it moves the open descriptors in
step with the handle. -/
theorem inv_push (st : State) (e : Effect) (fd : Int) (h : Inv st)
    (he : track (held st.ras_trace_fd) e = held fd) :
    Inv { ras_trace_fd := fd, trace := st.trace ++ [e] } := by
  have hod : openDescriptors (st.trace ++ [e]) = held fd := by
    rw [openDescriptors_append, h.1, he]
  refine ⟨hod, prefixes_push st.trace e h.2 ?_⟩
  rw [hod]; exact held_length fd

theorem inv_initial : Inv initial := by
  refine ⟨by simp [initial, openDescriptors, held], ?_⟩
  intro n
  simp [initial, openDescriptors]

theorem init_loop_inv (fs : String → Int) :
    ∀ (ps : List String) (st : State), st.ras_trace_fd < 0 → Inv st →
      Inv (init_loop fs ps st).1 := by
  intro ps
  induction ps with
  | nil =>
    intro st _ h
    simp only [init_loop]
    exact inv_push st _ st.ras_trace_fd h (by simp [track])
  | cons q ps ih =>
    intro st hfd h
    have hst : held st.ras_trace_fd = [] := by
      unfold held; rw [if_neg (by omega)]
    have h1 : Inv { ras_trace_fd := fs q, trace := st.trace ++ [Effect.open q (fs q)] } := by
      apply inv_push st _ (fs q) h
      rw [hst]; simp [track, held]
    by_cases hq : 0 ≤ fs q
    · simp only [init_loop, hq, if_true]
      exact inv_push _ _ (fs q) h1 (by simp [track])
    · simp only [init_loop, hq, if_false]
      exact ih _ (by simp; omega) h1

theorem cleanup_inv (st : State) (h : Inv st) : Inv (ras_trace_cleanup st) := by
  unfold ras_trace_cleanup
  by_cases hfd : 0 ≤ st.ras_trace_fd
  · rw [if_pos hfd]
    exact inv_push st _ (-1) h (by simp [track, held, hfd])
  · rw [if_neg hfd]; exact h

/-- A call of `ras_trace_mark` that returns adds at most one `write`. -/
theorem mark_shape (render : Formatter) (st st1 : State) (fmt : List Char) (args : List Arg)
    (h : ras_trace_mark render st fmt args = Except.ok st1) :
    st1 = st ∨ ∃ data count, st1 = State.mk st.ras_trace_fd
      (st.trace ++ [Effect.write st.ras_trace_fd data count]) := by
  unfold ras_trace_mark at h
  split at h
  · left; cases h; rfl
  · simp only at h
    split at h
    · split at h
      · right; cases h; exact ⟨_, _, rfl⟩
      · cases h
    · left; cases h; rfl

theorem mark_inv (render : Formatter) (st st1 : State) (fmt : List Char) (args : List Arg)
    (h : ras_trace_mark render st fmt args = Except.ok st1) (hinv : Inv st) : Inv st1 := by
  rcases mark_shape render st st1 fmt args h with h1 | ⟨data, count, h1⟩
  · rw [h1]; exact hinv
  · rw [h1]; exact inv_push st _ st.ras_trace_fd hinv (by simp [track])

theorem run_inv (render : Formatter) :
    ∀ (calls : List Call) (st st1 : State), Inv st →
      initWhenUnset render calls st = true → run render calls st = Except.ok st1 → Inv st1 := by
  intro calls
  induction calls with
  | nil =>
    intro st st1 hinv _ hrun
    simp only [run] at hrun
    cases hrun; exact hinv
  | cons c cs ih =>
    intro st st1 hinv hp hrun
    simp only [run] at hrun
    simp only [initWhenUnset, Bool.and_eq_true] at hp
    cases hs : step render st c with
    | error f => rw [hs] at hrun; cases hrun
    | ok st2 =>
      rw [hs] at hrun
      have hp2 := hp.2
      rw [hs] at hp2
      refine ih st2 st1 ?_ hp2 hrun
      cases c with
      | init fs =>
        simp only [step] at hs
        cases hs
        have hfd : st.ras_trace_fd < 0 := by simpa using hp.1
        exact init_loop_inv fs _ st hfd hinv
      | mark fmt args =>
        simp only [step] at hs
        exact mark_inv render st st2 fmt args hs hinv
      | cleanup =>
        simp only [step] at hs
        cases hs
        exact cleanup_inv st hinv

/-- A successful `open` in a trace whose prefixes never hold two descriptors
happens when none is open. -/
theorem open_when_none (t t1 t2 : List Effect) (p : String) (fd : Int)
    (h : ∀ n, (openDescriptors (t.take n)).length ≤ 1)
    (hsplit : t = t1 ++ Effect.open p fd :: t2) (hfd : 0 ≤ fd) :
    openDescriptors t1 = [] := by
  have h1 := h (t1.length + 1)
  have htake : t.take (t1.length + 1) = t1 ++ [Effect.open p fd] := by
    rw [hsplit]
    have : t1 ++ Effect.open p fd :: t2 = (t1 ++ [Effect.open p fd]) ++ t2 := by simp
    rw [this]
    exact take_succ_length_append t1 t2 _
  rw [htake, openDescriptors_append] at h1
  simp only [track, hfd, if_true, List.length_cons] at h1
  exact List.length_eq_zero.mp (by omega)

/-- When the loop fails, no candidate opened. -/
theorem init_loop_fail_all (fs : String → Int) :
    ∀ (ps : List String) (st : State), (init_loop fs ps st).2 = -1 → ∀ q ∈ ps, fs q < 0 := by
  intro ps
  induction ps with
  | nil => intro st _ q hq; cases hq
  | cons r ps ih =>
    intro st h q hq
    by_cases hr : 0 ≤ fs r
    · simp [init_loop, hr] at h
    · simp only [init_loop, hr, if_false] at h
      rcases List.mem_cons.mp hq with h1 | h1
      · subst h1; omega
      · exact ih _ h q h1

/-! ## Properties of `ras_trace_mark` -/

/-- C1, evaluation at an oversized message: with the handle set, a format that
expands to 1000 characters makes `ras_trace_mark` store the newline at index
1000 of the 512-byte buffer and ask `write` for 1001 bytes; nothing is
truncated. -/
theorem mark_oversized_render_overflows :
    ras_trace_mark printf { ras_trace_fd := 3, trace := [] } ['%', 's']
        [Arg.str (List.replicate 1000 'x')]
      = Except.error { storeIndex := 1000, writeCount := 1001 }
    ∧ BUF_SIZE ≤ 1000 ∧ BUF_SIZE + 1 < 1001 := by
  refine ⟨?_, by decide, by decide⟩
  have h := mark_overflow printf { ras_trace_fd := 3, trace := [] } ['%', 's']
    [Arg.str (List.replicate 1000 'x')] (List.replicate 1000 'x') (by decide)
    (printf_percent_s _) (by rw [List.length_replicate]; decide)
    (by rw [List.length_replicate]; decide)
  rw [List.length_replicate] at h
  exact h

/-- C2: with the handle set, a format and arguments whose expansion has
between 1 and 510 characters make `ras_trace_mark` issue exactly one call,
a `write` on the handle whose bytes are the expansion followed by one
newline, of length one more than the expansion. -/
theorem mark_writes_rendered_line (render : Formatter) (st : State) (fmt : List Char)
    (args : List Arg) (text : List Char) (hfd : 0 ≤ st.ras_trace_fd)
    (hr : render fmt args = some text) (h1 : 1 ≤ text.length) (h2 : text.length ≤ 510) :
    ras_trace_mark render st fmt args
      = Except.ok { ras_trace_fd := st.ras_trace_fd, trace := st.trace ++
          [Effect.write st.ras_trace_fd ((text ++ ['\n']).map some) (text.length + 1)] }
    ∧ ((text ++ ['\n']).map some).length = text.length + 1 := by
  refine ⟨mark_fits render st fmt args text hfd hr h1 h2, by simp⟩

/-- C2 at `mark("hello %d", 42)`: the nine bytes `hello 42\n` are written. -/
theorem mark_writes_rendered_line_witness :
    ((0 : Int) ≤ 3 ∧ printf "hello %d".toList [Arg.int 42] = some "hello 42".toList) ∧
    ras_trace_mark printf { ras_trace_fd := 3, trace := [] } "hello %d".toList [Arg.int 42]
      = Except.ok { ras_trace_fd := 3, trace :=
          [Effect.write 3 ("hello 42\n".toList.map some) 9] } :=
  ⟨⟨by decide, by decide⟩,
   (mark_writes_rendered_line printf { ras_trace_fd := 3, trace := [] } "hello %d".toList
      [Arg.int 42] "hello 42".toList (by decide) (by decide) (by decide) (by decide)).1⟩

/-- C3, evaluation at a message of 511 characters: with the handle set, the
512 bytes written are the first 510 characters, then the NUL byte stored by
`vsnprintf`, then the newline; the NUL is no part of the message, and what
precedes the newline is not a prefix of the message. -/
theorem mark_511_writes_nul :
    ras_trace_mark printf { ras_trace_fd := 3, trace := [] } ['%', 's']
        [Arg.str (List.replicate 511 'a')]
      = Except.ok { ras_trace_fd := 3, trace :=
          [Effect.write 3
            ((List.replicate 510 'a' ++ [Char.ofNat 0, '\n']).map some) 512] }
    ∧ Char.ofNat 0 ∉ List.replicate 511 'a'
    ∧ ¬ (List.replicate 510 'a' ++ [Char.ofNat 0]) <+: List.replicate 511 'a' := by
  refine ⟨?_, ?_, ?_⟩
  · have h := mark_511 printf { ras_trace_fd := 3, trace := [] } ['%', 's']
      [Arg.str (List.replicate 511 'a')] (List.replicate 511 'a') (by decide)
      (printf_percent_s _) (List.length_replicate 511 'a')
    have ht : (List.replicate 511 'a').take 510 = List.replicate 510 'a' := by
      rw [List.take_replicate]; rfl
    rw [ht] at h
    exact h
  · intro h
    have := List.eq_of_mem_replicate h
    exact absurd this (by decide)
  · intro h
    have hmem : Char.ofNat 0 ∈ List.replicate 511 'a' :=
      h.subset (List.mem_append_right _ (List.mem_singleton_self _))
    have := List.eq_of_mem_replicate hmem
    exact absurd this (by decide)

/-- C4: an expansion of length zero makes `ras_trace_mark` leave the state
as it is, so that nothing is written; and whenever the call does anything
else than leave the state as it is, the expansion has at least one
character. -/
theorem mark_empty_no_write (render : Formatter) (st : State) (fmt : List Char)
    (args : List Arg) :
    (render fmt args = some [] → ras_trace_mark render st fmt args = Except.ok st) ∧
    (ras_trace_mark render st fmt args ≠ Except.ok st →
      ∃ text, render fmt args = some text ∧ 1 ≤ text.length) := by
  constructor
  · intro hr
    simp [ras_trace_mark, vsnprintf_ret, hr, INT_MAX]
  · intro hne
    cases hr : render fmt args with
    | none =>
      exfalso; apply hne
      simp [ras_trace_mark, vsnprintf_ret, hr]
    | some text =>
      refine ⟨text, rfl, ?_⟩
      cases text with
      | nil =>
        exfalso; apply hne
        simp [ras_trace_mark, vsnprintf_ret, hr, INT_MAX]
      | cons c t => simp

/-- C4 at the empty format, handle set: no call is made. -/
theorem mark_empty_no_write_witness :
    printf [] [] = some [] ∧
    ras_trace_mark printf { ras_trace_fd := 3, trace := [] } [] []
      = Except.ok { ras_trace_fd := 3, trace := [] } :=
  ⟨by decide, (mark_empty_no_write printf { ras_trace_fd := 3, trace := [] } [] []).1
    (by decide)⟩

/-- C5: with the handle unset, `ras_trace_mark` returns the state unchanged
for every format and arguments (no call is made, the handle stays unset),
and so does any sequence of such calls. -/
theorem mark_disabled_noop (render : Formatter) (st : State) (h : st.ras_trace_fd < 0) :
    (∀ fmt args, ras_trace_mark render st fmt args = Except.ok st) ∧
    (∀ marks : List (List Char × List Arg),
      run render (marks.map (fun m => Call.mark m.1 m.2)) st = Except.ok st) := by
  have hone : ∀ fmt args, ras_trace_mark render st fmt args = Except.ok st :=
    fun fmt args => mark_unset render st fmt args h
  refine ⟨hone, ?_⟩
  intro marks
  induction marks with
  | nil => simp [run]
  | cons m ms ih =>
    simp only [List.map_cons, run, step, hone]
    exact ih

/-- C5 at 1000 calls from the initial state: the state is unchanged and its
trace is empty. -/
theorem mark_disabled_noop_witness :
    initial.ras_trace_fd < 0 ∧
    run printf ((List.replicate 1000 ("hello %d".toList, [Arg.int 42])).map
      (fun m => Call.mark m.1 m.2)) initial = Except.ok initial ∧
    initial.trace = [] :=
  ⟨by decide, (mark_disabled_noop printf initial (by decide)).2 _, rfl⟩

/-! ## Properties of `ras_trace_init` and `ras_trace_cleanup` -/

/-- C6: the candidates are the debugfs path then the tracefs path; whatever
`open` returns, when the candidates before `p` all fail and `p` opens,
`ras_trace_init` opens exactly those candidates and `p`, in order, records
the descriptor of `p` as the handle and returns 0, opening nothing after
`p`; in particular when the first candidate opens it alone is opened. -/
theorem init_selects_first_openable (fs : String → Int) (st : State)
    (pre : List String) (p : String) (post : List String)
    (hsplit : trace_marker_paths = pre ++ p :: post)
    (hpre : ∀ q ∈ pre, fs q < 0) (hp : 0 ≤ fs p) :
    trace_marker_paths
      = ["/sys/kernel/debug/tracing/trace_marker", "/sys/kernel/tracing/trace_marker"] ∧
    ras_trace_init fs st
      = ({ ras_trace_fd := fs p,
           trace := st.trace ++ (failedOpens fs pre ++
             [Effect.open p (fs p),
              Effect.log LogLevel.LOG_INFO "Tracing enabled via %s\n" (some p)]) }, 0) ∧
    (pre = [] →
      p = "/sys/kernel/debug/tracing/trace_marker" ∧
      ras_trace_init fs st
        = ({ ras_trace_fd := fs p,
             trace := st.trace ++
               [Effect.open p (fs p),
                Effect.log LogLevel.LOG_INFO "Tracing enabled via %s\n" (some p)] }, 0)) := by
  have hmain := init_loop_first fs p post hp pre st hpre
  rw [← hsplit] at hmain
  refine ⟨rfl, hmain, ?_⟩
  intro hnil
  subst hnil
  refine ⟨?_, ?_⟩
  · simp only [trace_marker_paths, List.nil_append, List.cons.injEq] at hsplit
    exact hsplit.1.symm
  · rw [show ras_trace_init fs st = init_loop fs trace_marker_paths st from rfl, hmain]
    simp [failedOpens]

/-- C6 where debugfs is absent and tracefs opens as descriptor 3: both
candidates are opened, in order, and the second is selected. -/
theorem init_selects_first_openable_witness :
    (trace_marker_paths
        = ["/sys/kernel/debug/tracing/trace_marker"] ++
            "/sys/kernel/tracing/trace_marker" :: [] ∧
      (∀ q ∈ ["/sys/kernel/debug/tracing/trace_marker"], fsTracefs 3 q < 0) ∧
      0 ≤ fsTracefs 3 "/sys/kernel/tracing/trace_marker") ∧
    ras_trace_init (fsTracefs 3) initial
      = ({ ras_trace_fd := 3,
           trace := [Effect.open "/sys/kernel/debug/tracing/trace_marker" (-1),
             Effect.open "/sys/kernel/tracing/trace_marker" 3,
             Effect.log LogLevel.LOG_INFO "Tracing enabled via %s\n"
               (some "/sys/kernel/tracing/trace_marker")] }, 0) :=
  ⟨⟨rfl, by decide, by decide⟩,
   (init_selects_first_openable (fsTracefs 3) initial
      ["/sys/kernel/debug/tracing/trace_marker"] "/sys/kernel/tracing/trace_marker" []
      rfl (by decide) (by decide)).2.1⟩

/-- C7: called with the handle unset, when no candidate opens
`ras_trace_init` returns -1 after an `open` of every candidate, in order,
and the handle is still negative; and it returns -1 only when no candidate
opens. -/
theorem init_fails_iff_none_openable (fs : String → Int) (st : State)
    (hunset : st.ras_trace_fd < 0) :
    ((∀ p ∈ trace_marker_paths, fs p < 0) →
      (ras_trace_init fs st).2 = -1 ∧
      (ras_trace_init fs st).1.ras_trace_fd < 0 ∧
      (ras_trace_init fs st).1.trace = st.trace ++ (failedOpens fs trace_marker_paths ++
        [Effect.log LogLevel.LOG_WARNING
          "Could not open trace_marker. Tracing disabled.\nEnsure debugfs is mounted: mount -t debugfs none /sys/kernel/debug\n"
          none])) ∧
    ((ras_trace_init fs st).2 = -1 → ∀ p ∈ trace_marker_paths, fs p < 0) := by
  constructor
  · intro hall
    obtain ⟨h1, h2, h3⟩ := init_loop_none fs trace_marker_paths st hall
    refine ⟨h1, ?_, h2⟩
    rcases h3 with h3 | ⟨q, hq, h3⟩
    · unfold ras_trace_init; rw [h3]; exact hunset
    · unfold ras_trace_init; rw [h3]; exact hall q hq
  · exact init_loop_fail_all fs trace_marker_paths st

/-- C7 from the initial state when nothing opens. -/
theorem init_fails_iff_none_openable_witness :
    (initial.ras_trace_fd < 0 ∧ ∀ p ∈ trace_marker_paths, fsNone p < 0) ∧
    (ras_trace_init fsNone initial).2 = -1 ∧
    (ras_trace_init fsNone initial).1.ras_trace_fd < 0 :=
  have hall : ∀ p ∈ trace_marker_paths, fsNone p < 0 := fun _ _ => by simp [fsNone]
  ⟨⟨by decide, hall⟩,
   ((init_fails_iff_none_openable fsNone initial (by decide)).1 hall).1,
   ((init_fails_iff_none_openable fsNone initial (by decide)).1 hall).2.1⟩

/-- C8 as stated fails: two `ras_trace_init` in a row, the debugfs candidate
opening as descriptor 3 and then as 4, leave both descriptors open, the
handle holding 4 only; descriptor 3 was overwritten while open. -/
theorem double_init_holds_two_descriptors :
    run printf [Call.init (fsDebug 3), Call.init (fsDebug 4)] initial
      = Except.ok { ras_trace_fd := 4, trace :=
          [Effect.open "/sys/kernel/debug/tracing/trace_marker" 3,
           Effect.log LogLevel.LOG_INFO "Tracing enabled via %s\n"
             (some "/sys/kernel/debug/tracing/trace_marker"),
           Effect.open "/sys/kernel/debug/tracing/trace_marker" 4,
           Effect.log LogLevel.LOG_INFO "Tracing enabled via %s\n"
             (some "/sys/kernel/debug/tracing/trace_marker")] } ∧
    openDescriptors
        [Effect.open "/sys/kernel/debug/tracing/trace_marker" 3,
         Effect.log LogLevel.LOG_INFO "Tracing enabled via %s\n"
           (some "/sys/kernel/debug/tracing/trace_marker"),
         Effect.open "/sys/kernel/debug/tracing/trace_marker" 4,
         Effect.log LogLevel.LOG_INFO "Tracing enabled via %s\n"
           (some "/sys/kernel/debug/tracing/trace_marker")]
      = [4, 3] ∧
    ¬ ([4, 3] : List Int).length ≤ 1 := by
  refine ⟨rfl, by decide, by decide⟩

/-- C8, amended: for every sequence of init, mark and cleanup calls from the
initial state in which each init is called with the handle unset, and that
runs to its end, at every point of the trace at most one descriptor opened
by the module is open; at the end the open descriptors are exactly the
handle when it is set and none otherwise; and every successful `open`
happens while no descriptor of the module is open. -/
theorem single_handle_when_init_unset (render : Formatter) (calls : List Call) (st : State)
    (hinit : initWhenUnset render calls initial = true)
    (hrun : run render calls initial = Except.ok st) :
    (∀ n, (openDescriptors (st.trace.take n)).length ≤ 1) ∧
    openDescriptors st.trace = held st.ras_trace_fd ∧
    (∀ t1 p fd t2, st.trace = t1 ++ Effect.open p fd :: t2 → 0 ≤ fd →
      openDescriptors t1 = []) := by
  have hinv := run_inv render calls initial st inv_initial hinit hrun
  exact ⟨hinv.2, hinv.1, fun t1 p fd t2 hsplit hfd =>
    open_when_none st.trace t1 t2 p fd hinv.2 hsplit hfd⟩

/-- C8, amended, at init, mark, cleanup, init: the second init happens after
the cleanup, and one descriptor is open at the end. -/
theorem single_handle_when_init_unset_witness :
    (initWhenUnset printf
        [Call.init (fsDebug 3), Call.mark "hello %d".toList [Arg.int 42], Call.cleanup,
         Call.init (fsTracefs 4)] initial = true ∧
      run printf
        [Call.init (fsDebug 3), Call.mark "hello %d".toList [Arg.int 42], Call.cleanup,
         Call.init (fsTracefs 4)] initial
        = Except.ok { ras_trace_fd := 4, trace :=
            [Effect.open "/sys/kernel/debug/tracing/trace_marker" 3,
             Effect.log LogLevel.LOG_INFO "Tracing enabled via %s\n"
               (some "/sys/kernel/debug/tracing/trace_marker"),
             Effect.write 3 ("hello 42\n".toList.map some) 9,
             Effect.close 3,
             Effect.open "/sys/kernel/debug/tracing/trace_marker" (-1),
             Effect.open "/sys/kernel/tracing/trace_marker" 4,
             Effect.log LogLevel.LOG_INFO "Tracing enabled via %s\n"
               (some "/sys/kernel/tracing/trace_marker")] }) ∧
    openDescriptors
        [Effect.open "/sys/kernel/debug/tracing/trace_marker" 3,
         Effect.log LogLevel.LOG_INFO "Tracing enabled via %s\n"
           (some "/sys/kernel/debug/tracing/trace_marker"),
         Effect.write 3 ("hello 42\n".toList.map some) 9,
         Effect.close 3,
         Effect.open "/sys/kernel/debug/tracing/trace_marker" (-1),
         Effect.open "/sys/kernel/tracing/trace_marker" 4,
         Effect.log LogLevel.LOG_INFO "Tracing enabled via %s\n"
           (some "/sys/kernel/tracing/trace_marker")]
      = held 4 :=
  ⟨⟨rfl, rfl⟩,
   (single_handle_when_init_unset printf
      [Call.init (fsDebug 3), Call.mark "hello %d".toList [Arg.int 42], Call.cleanup,
       Call.init (fsTracefs 4)] _ rfl rfl).2.1⟩

/-- C9: after a `ras_trace_init` that returned 0, the handle is the
descriptor of the one candidate that opened; `ras_trace_cleanup` then makes
one call, the `close` of that descriptor, and sets the handle to -1; and a
following `ras_trace_mark` leaves the state as it is, whatever the format
and arguments. -/
theorem cleanup_after_init_disables (render : Formatter) (fs : String → Int) (st : State)
    (h : (ras_trace_init fs st).2 = 0) :
    ∃ pre p post, trace_marker_paths = pre ++ p :: post ∧ (∀ q ∈ pre, fs q < 0) ∧
      0 ≤ fs p ∧
      (ras_trace_init fs st).1
        = State.mk (fs p) (st.trace ++ (failedOpens fs pre ++
            [Effect.open p (fs p),
             Effect.log LogLevel.LOG_INFO "Tracing enabled via %s\n" (some p)])) ∧
      ras_trace_cleanup (ras_trace_init fs st).1
        = State.mk (-1) ((ras_trace_init fs st).1.trace ++ [Effect.close (fs p)]) ∧
      ∀ fmt args,
        ras_trace_mark render (ras_trace_cleanup (ras_trace_init fs st).1) fmt args
          = Except.ok (ras_trace_cleanup (ras_trace_init fs st).1) := by
  obtain ⟨pre, p, post, hsplit, hpre, hp⟩ := init_loop_success fs trace_marker_paths st h
  have hinit := init_loop_first fs p post hp pre st hpre
  rw [← hsplit] at hinit
  have hst : (ras_trace_init fs st).1
      = State.mk (fs p) (st.trace ++ (failedOpens fs pre ++
          [Effect.open p (fs p),
           Effect.log LogLevel.LOG_INFO "Tracing enabled via %s\n" (some p)])) := by
    unfold ras_trace_init; rw [hinit]
  have hcl : ras_trace_cleanup (ras_trace_init fs st).1
      = State.mk (-1) ((ras_trace_init fs st).1.trace ++ [Effect.close (fs p)]) := by
    rw [hst]; simp [ras_trace_cleanup, hp]
  refine ⟨pre, p, post, hsplit, hpre, hp, hst, hcl, ?_⟩
  intro fmt args
  apply mark_unset
  rw [hcl]; show (-1 : Int) < 0; decide

/-- C9 at init with debugfs opening as 3, then cleanup, then a mark. -/
theorem cleanup_after_init_disables_witness :
    (ras_trace_init (fsDebug 3) initial).2 = 0 ∧
    ∃ pre p post, trace_marker_paths = pre ++ p :: post ∧ (∀ q ∈ pre, fsDebug 3 q < 0) ∧
      0 ≤ fsDebug 3 p ∧
      (ras_trace_init (fsDebug 3) initial).1
        = State.mk (fsDebug 3 p) (initial.trace ++ (failedOpens (fsDebug 3) pre ++
            [Effect.open p (fsDebug 3 p),
             Effect.log LogLevel.LOG_INFO "Tracing enabled via %s\n" (some p)])) ∧
      ras_trace_cleanup (ras_trace_init (fsDebug 3) initial).1
        = State.mk (-1) ((ras_trace_init (fsDebug 3) initial).1.trace ++
            [Effect.close (fsDebug 3 p)]) ∧
      ∀ fmt args,
        ras_trace_mark printf (ras_trace_cleanup (ras_trace_init (fsDebug 3) initial).1)
            fmt args
          = Except.ok (ras_trace_cleanup (ras_trace_init (fsDebug 3) initial).1) :=
  ⟨rfl, cleanup_after_init_disables printf (fsDebug 3) initial rfl⟩

/-- C10: calling `ras_trace_cleanup` twice gives the state one call gives;
after a call the handle is unset; and a call made with the handle unset
returns the state as it is, without a `close`. -/
theorem cleanup_idempotent (st : State) :
    ras_trace_cleanup (ras_trace_cleanup st) = ras_trace_cleanup st ∧
    (ras_trace_cleanup st).ras_trace_fd < 0 ∧
    (st.ras_trace_fd < 0 → ras_trace_cleanup st = st) := by
  have hunset : ∀ s : State, s.ras_trace_fd < 0 → ras_trace_cleanup s = s := by
    intro s hs
    unfold ras_trace_cleanup
    rw [if_neg (by omega)]
  have hneg : (ras_trace_cleanup st).ras_trace_fd < 0 := by
    unfold ras_trace_cleanup
    by_cases hfd : 0 ≤ st.ras_trace_fd
    · rw [if_pos hfd]; show (-1 : Int) < 0; decide
    · rw [if_neg hfd]; omega
  exact ⟨hunset _ hneg, hneg, hunset st⟩

/-- C10 from a state whose handle is descriptor 3: one `close 3`, whether
cleanup is called once or twice. -/
theorem cleanup_idempotent_witness :
    ras_trace_cleanup (ras_trace_cleanup { ras_trace_fd := 3, trace := [] })
      = { ras_trace_fd := -1, trace := [Effect.close 3] } ∧
    ras_trace_cleanup { ras_trace_fd := -1, trace := [Effect.close 3] }
      = { ras_trace_fd := -1, trace := [Effect.close 3] } :=
  ⟨(cleanup_idempotent { ras_trace_fd := 3, trace := [] }).1,
   (cleanup_idempotent { ras_trace_fd := -1, trace := [Effect.close 3] }).2.2 (by decide)⟩

end RasTrace
